import Mathlib

/-!
Verification of the B3 IBOVESPA ETL pipeline (modules `ETL/extract.py` and
`ETL/transform.py`).

The Python modules are embedded shallowly:

* machine floats coming out of `pd.to_numeric` are modelled as exact
  rationals (`ℚ`), with pandas' missing-value marker `NaN` modelled as
  `Option.none`;
* a pandas `DataFrame` is a `Frame`: its declared column list plus the typed
  rows relevant to the pipeline (`cod`, `asset`, `part`, `theoricalQty`);
* the S3 blob store is a key-value association list from object keys to the
  stored frames; client-side failures (missing credentials, client errors)
  enter as explicit outcome parameters;
* fallible Python code that catches its exceptions returns `Option`/`Bool`;
  a spot where an exception would escape a function uncaught is modelled as
  the `Except.error` alternative of the function's result.
-/

/-- Equality of `Except` values is decidable when both components' are. -/
instance exceptDecEq (ε α : Type) [DecidableEq ε] [DecidableEq α] : DecidableEq (Except ε α) :=
  fun x y =>
    match x, y with
    | Except.ok a, Except.ok b => decidable_of_iff (a = b) (by simp)
    | Except.ok _, Except.error _ => Decidable.isFalse (by intro h; cases h)
    | Except.error _, Except.ok _ => Decidable.isFalse (by intro h; cases h)
    | Except.error e, Except.error f => decidable_of_iff (e = f) (by simp)

/-! ## Lexicographic string comparison and insertion sort

`pandas.DataFrame.groupby` sorts its group keys in ascending order (its
`sort=True` default).  The sort is embedded with an explicitly executable
insertion sort over an executable `Bool`-valued lexicographic comparison,
which is proved below to agree with the `≤` linear order on `String`.
-/

/-- Boolean lexicographic comparison of character lists, agreeing with the
list order underlying the `String` linear order. -/
def lexLe : List Char → List Char → Bool
  | [], _ => true
  | _ :: _, [] => false
  | a :: as, b :: bs => if a < b then true else if b < a then false else lexLe as bs

/-- Boolean comparison of strings: `strLe s t = true` iff `s ≤ t`. -/
def strLe (s t : String) : Bool := lexLe s.data t.data

/-- Insert a string into a (sorted) list, preserving ascending order. -/
def insertSorted (a : String) : List String → List String
  | [] => [a]
  | b :: t => if strLe a b then a :: b :: t else b :: insertSorted a t

/-- Insertion sort over strings in ascending order. -/
def sortStrings (l : List String) : List String := l.foldr insertSorted []

/-- The ascending list of distinct values of `l`: the group keys produced by
`df.groupby(col)` with its default `sort=True`. -/
def sortedUnique (l : List String) : List String := sortStrings l.dedup

/-! ## Decimal printing and parsing helpers -/

/-- The ASCII digit character for `n < 10`. -/
def digitChar (n : Nat) : Char :=
  match n with
  | 0 => '0' | 1 => '1' | 2 => '2' | 3 => '3' | 4 => '4'
  | 5 => '5' | 6 => '6' | 7 => '7' | 8 => '8' | _ => '9'

/-- Fuelled decimal printer (the fuel only bounds recursion depth; it is
always called with enough fuel). -/
def natDigitsAux : Nat → Nat → List Char
  | 0, _ => []
  | fuel + 1, n => if n < 10 then [digitChar n] else natDigitsAux fuel (n / 10) ++ [digitChar (n % 10)]

/-- Decimal digit string of a natural number, as printed by Python's
`str`/`json.dumps` for a non-negative `int`. -/
def natToChars (n : Nat) : List Char := natDigitsAux (n + 1) n

/-- Decimal digit string of a natural number, as a `String`. -/
def natToStr (n : Nat) : String := String.mk (natToChars n)

/-- Value of a digit string (the standard left fold). -/
def parseNatChars (l : List Char) : Nat := l.foldl (fun acc c => acc * 10 + (c.toNat - 48)) 0

/-- Zero-padded two-digit field, as Python's `f-string` format `{n:02d}`. -/
def pad2 (n : Nat) : String := if n < 10 then "0" ++ natToStr n else natToStr n

/-- Zero-padded four-digit field, as Python's `strftime` directive `%Y`. -/
def pad4 (n : Nat) : String :=
  if n < 10 then "000" ++ natToStr n
  else if n < 100 then "00" ++ natToStr n
  else if n < 1000 then "0" ++ natToStr n
  else natToStr n

/-! ## Dates and partition keys -/

/-- A calendar date as used for daily partitioning. -/
structure PartitionDate where
  year : Nat
  month : Nat
  day : Nat
deriving DecidableEq

/-- The S3 object key computed by `B3DataExtractor.save_to_s3`
(src/ETL/extract.py line 363): path segments use the raw year and
zero-padded month/day, the file name embeds `strftime('%Y%m%d')`. -/
def s3KeyExtract (d : PartitionDate) : String :=
  "ibovespa-data/year=" ++ natToStr d.year ++ "/month=" ++ pad2 d.month ++
    "/day=" ++ pad2 d.day ++ "/ibovespa_" ++ pad4 d.year ++ pad2 d.month ++ pad2 d.day ++ ".parquet"

/-- The S3 object key computed by `B3DataTransformer.read_from_s3`
(src/ETL/transform.py line 65). -/
def s3KeyTransform (d : PartitionDate) : String :=
  "ibovespa-data/year=" ++ natToStr d.year ++ "/month=" ++ pad2 d.month ++
    "/day=" ++ pad2 d.day ++ "/ibovespa_" ++ pad4 d.year ++ pad2 d.month ++ pad2 d.day ++ ".parquet"

/-- `date.today().strftime('%Y-%m-%d')` (src/ETL/transform.py line 133). -/
def formatIsoDate (d : PartitionDate) : String :=
  pad4 d.year ++ "-" ++ pad2 d.month ++ "-" ++ pad2 d.day

/-! ## Rows, frames and the blob store -/

/-- The pipeline-relevant columns of one record, after cleaning: `cod` and
`asset` may have become missing (`'None'` string mapped to null), `part` and
`theoricalQty` may have become `NaN` (modelled `none`) under coercion. -/
structure RawRow where
  cod : Option String
  asset : Option String
  part : Option ℚ
  theoricalQty : Option ℚ
deriving DecidableEq

/-- A pandas `DataFrame`: the declared column list together with the typed
pipeline-relevant content of its rows. -/
structure Frame where
  columns : List String
  rows : List RawRow
deriving DecidableEq

/-- One output row of `B3DataTransformer.transform_data`. -/
structure AggRow where
  acao : String
  qtd_codigo : Nat
  participacao : ℚ
  qtd_teorica_total : ℚ
  data : String
deriving DecidableEq

/-- Failure modes of the S3 client as distinguished by the `except` clauses
of the two modules: `ClientError` with code `NoSuchKey`, any other
`ClientError`, `NoCredentialsError`, and any other exception. -/
inductive S3Err where
  | noSuchKey
  | otherClient
  | noCredentials
  | otherFailure
deriving DecidableEq

/-- The durable blob store: an association list from object keys to stored
frames.  A new write shadows an older object at the same key
(overwrite/last-write-wins semantics). -/
abbrev Store := List (String × Frame)

/-- Outcome of `s3_client.get_object`: the stored frame, or `NoSuchKey` when
no object exists at the key. -/
def s3GetObject (store : Store) (key : String) : Except S3Err Frame :=
  match store.lookup key with
  | some df => Except.ok df
  | none => Except.error S3Err.noSuchKey

/-- `B3DataTransformer.read_from_s3` (src/ETL/transform.py lines 56-88)
applied to the outcome of its `get_object` call: on success it returns the
loaded frame; a `NoSuchKey` client error is logged specially but, like every
other exception, produces the return value `None`. -/
def readFromS3Result (get : Except S3Err Frame) : Option Frame :=
  match get with
  | Except.ok df => some df
  | Except.error S3Err.noSuchKey => none
  | Except.error _ => none

/-- `B3DataTransformer.read_from_s3` against a store state: it looks up the
deterministic partition key for the date. -/
def readFromS3 (store : Store) (d : PartitionDate) : Option Frame :=
  readFromS3Result (s3GetObject store (s3KeyTransform d))

/-- `B3DataExtractor.save_to_s3` (src/ETL/extract.py lines 339-398): an
empty frame is rejected before any store interaction; otherwise the frame is
uploaded at the partition key for the date (`uploadErr` is the outcome of
`upload_fileobj`; any client exception yields `False` with no committed
object).  Returns the success flag and the resulting store state. -/
def saveToS3 (uploadErr : Option S3Err) (df : Frame) (d : PartitionDate) (store : Store) :
    Bool × Store :=
  if df.rows = [] then (false, store)
  else
    match uploadErr with
    | none => (true, (s3KeyExtract d, df) :: store)
    | some _ => (false, store)

/-! ## The transformer -/

/-- The columns `transform_data` requires (src/ETL/transform.py line 104). -/
def requiredColumns : List String := ["asset", "cod", "part", "theoricalQty"]

/-- Rows of one `groupby('asset')` group. -/
def groupRows (rows : List RawRow) (a : String) : List RawRow :=
  rows.filter (fun r => decide (r.asset = some a))

/-- The aggregation performed by `transform_data` (src/ETL/transform.py
lines 114-133): group by `asset` (pandas sorts the group keys ascending and
drops rows whose key is missing), count the non-missing `cod` values
(pandas `'count'`), sum `part` and `theoricalQty` skipping missing values
(pandas `'sum'` with its `skipna` default), and append the constant `data`
column. -/
def aggregateRows (rows : List RawRow) (dataStr : String) : List AggRow :=
  (sortedUnique (rows.filterMap RawRow.asset)).map fun a =>
    { acao := a
      qtd_codigo := ((groupRows rows a).filter (fun r => r.cod.isSome)).length
      participacao := ((groupRows rows a).filterMap RawRow.part).sum
      qtd_teorica_total := ((groupRows rows a).filterMap RawRow.theoricalQty).sum
      data := dataStr }

/-- `B3DataTransformer.transform_data` (src/ETL/transform.py lines 100-145):
if any required column is absent it raises `ValueError` (modelled as
`Except.error` carrying the missing columns); otherwise it aggregates. -/
def transformData (df : Frame) (today : PartitionDate) : Except (List String) (List AggRow) :=
  let missing := requiredColumns.filter (fun c => decide (c ∉ df.columns))
  if missing = [] then Except.ok (aggregateRows df.rows (formatIsoDate today))
  else Except.error missing

/-- `B3DataTransformer.save_transformed_to_s3` (src/ETL/transform.py lines
158-207): empty output is rejected with `False`; otherwise the success flag
reflects the upload outcome. -/
def saveTransformedToS3 (uploadErr : Option S3Err) (out : List AggRow) : Bool :=
  if out = [] then false
  else
    match uploadErr with
    | none => true
    | some _ => false

/-- `B3DataTransformer.transform_and_save` (src/ETL/transform.py lines
220-244): a failed read yields `False`; the `ValueError` raised by
`transform_data` is caught by the enclosing `except` and yields `False`;
otherwise the save outcome is returned. -/
def transformAndSave (get : Except S3Err Frame) (uploadErr : Option S3Err)
    (today : PartitionDate) : Bool :=
  match readFromS3Result get with
  | none => false
  | some df =>
    match transformData df today with
    | Except.error _ => false
    | Except.ok out => saveTransformedToS3 uploadErr out

/-! ## Field cleaning (`_clean_dataframe`) -/

/-- The character class kept by the regex replacement
`str.replace(r'[^\d,.-]', '', regex=True)` (src/ETL/extract.py line 320). -/
def keepNumericChar (c : Char) : Bool := c.isDigit || c = ',' || c = '.' || c = '-'

/-- The comma-to-period replacement `str.replace(',', '.')`
(src/ETL/extract.py line 322). -/
def commaToDot (c : Char) : Char := if c = ',' then '.' else c

/-- Numeric parsing of the cleaned digit string, as `pd.to_numeric` on a
string containing only digits, periods and minus signs: an optional leading
minus, then digits with at most one decimal point and at least one digit;
anything else is unparsable. -/
def parseUnsignedChars (cs : List Char) : Option ℚ :=
  let intPart := cs.takeWhile Char.isDigit
  match cs.dropWhile Char.isDigit with
  | [] => if intPart.isEmpty then none else some (parseNatChars intPart : ℚ)
  | '.' :: fracPart =>
    if fracPart.all Char.isDigit && (!intPart.isEmpty || !fracPart.isEmpty) then
      some ((parseNatChars intPart : ℚ) + (parseNatChars fracPart : ℚ) / (10 : ℚ) ^ fracPart.length)
    else none
  | _ => none

/-- Signed numeric parsing (`pd.to_numeric` with `errors='coerce'`:
unparsable input becomes the missing-value marker). -/
def toNumericChars (cs : List Char) : Option ℚ :=
  match cs with
  | '-' :: rest => (parseUnsignedChars rest).map (fun q => -q)
  | _ => parseUnsignedChars cs

/-- The per-value numeric coercion of `B3DataExtractor._clean_dataframe`
(src/ETL/extract.py lines 317-324): strip every character outside
`[0-9,.-]`, replace commas by periods, parse as a number, and coerce
parse failures to the missing-value marker. -/
def cleanNumericField (s : String) : Option ℚ :=
  toNumericChars ((s.data.filter keepNumericChar).map commaToDot)

/-- The numeric coercion as the specification words it: strip every
character that is not a digit, comma, period, or minus sign, then replace
comma with period, then parse as a number, unparsable values becoming a
missing-value marker. -/
def coerceNumericSpec (s : String) : Option ℚ :=
  toNumericChars
    ((s.data.filter (fun c => c.isDigit || c = ',' || c = '.' || c = '-')).map
      (fun c => if c = ',' then '.' else c))

/-- Python's `str.strip()`: drop whitespace from both ends. -/
def pyStrip (s : String) : String :=
  String.mk (((s.data.dropWhile Char.isWhitespace).reverse.dropWhile Char.isWhitespace).reverse)

/-- The per-value string cleaning of `B3DataExtractor._clean_dataframe`
(src/ETL/extract.py lines 327-331): trim, then map the literal string
`'None'` to an explicit missing value. -/
def cleanStringField (s : String) : Option String :=
  let t := pyStrip s
  if t = "None" then none else some t

/-! ## The paginated retriever -/

/-- The pagination block of a decoded API response. -/
structure PageInfo where
  totalPages : Nat
  totalRecords : Nat
deriving DecidableEq

/-- A decoded API response body, restricted to the fields the retriever
touches: the `results` list (absent when the key is missing) and the `page`
block (absent when the key is missing). -/
structure Envelope where
  results : Option (List RawRow)
  page : Option PageInfo
deriving DecidableEq

/-- The error taxonomy of `extract_data`'s `except` clauses:
`requests.RequestException`, `json.JSONDecodeError`, and the catch-all. -/
inductive ErrKind where
  | transportError
  | malformedResponse
  | unexpected
deriving DecidableEq

/-- Outcome of one attempt's HTTP-request/parse block inside
`extract_data`: a truthy decoded body, a falsy decoded body (no exception,
nothing returned), or an exception of one of the three caught kinds. -/
inductive AttemptOutcome where
  | gotData (e : Envelope)
  | emptyBody
  | failed (k : ErrKind)
deriving DecidableEq

/-- The retry loop of `B3DataExtractor.extract_data` (src/ETL/extract.py
lines 121-177), with attempt index `i` and the given number of remaining
attempts: a truthy body is returned immediately (with or without a
`results` key); a falsy body or a caught exception moves on to the next
attempt; when attempts run out the function returns `None`. -/
def extractDataAux (attempt : Nat → AttemptOutcome) (i : Nat) : Nat → Option Envelope
  | 0 => none
  | remaining + 1 =>
    match attempt i with
    | AttemptOutcome.gotData e => some e
    | AttemptOutcome.emptyBody => extractDataAux attempt (i + 1) remaining
    | AttemptOutcome.failed _ => extractDataAux attempt (i + 1) remaining

/-- `B3DataExtractor.extract_data(max_retries)`: run the retry loop from
attempt 0. -/
def extractData (attempt : Nat → AttemptOutcome) (maxRetries : Nat) : Option Envelope :=
  extractDataAux attempt 0 maxRetries

/-- The page loop of `extract_all_pages` (src/ETL/extract.py lines
210-221): starting from the accumulated results of earlier pages, fetch
`count` further pages beginning at page `start`; a page that fails (fetch
returns `None`) or lacks a `results` key is logged and skipped. -/
def collectPages (pageFetch : Nat → Option Envelope) (acc : List RawRow) (start : Nat) :
    Nat → List RawRow
  | 0 => acc
  | count + 1 =>
    match pageFetch start with
    | some pd =>
      match pd.results with
      | some rs => collectPages pageFetch (acc ++ rs) (start + 1) count
      | none => collectPages pageFetch acc (start + 1) count
    | none => collectPages pageFetch acc (start + 1) count

/-- `B3DataExtractor.extract_all_pages` (src/ETL/extract.py lines 179-229),
parameterised by the page fetcher (page 1 goes through `extract_data`,
later pages through `_extract_single_page`, each with its own retry
budget — `pageFetch n` is the outcome of that complete retried fetch of
page `n`).  A failed first page yields `None`.  `totalPages` is read with
default 1.  With more than one page, the subscript accesses
`first_page['results']` and `consolidated_data['page']` would raise
`KeyError` out of the function if those keys were absent (the
`Except.error` alternative); otherwise pages 2..totalPages are appended in
order and `totalRecords` is recomputed as the consolidated length. -/
def extractAllPages (pageFetch : Nat → Option Envelope) : Except Unit (Option Envelope) :=
  match pageFetch 1 with
  | none => Except.ok none
  | some firstPage =>
    let totalPages := (firstPage.page.map PageInfo.totalPages).getD 1
    if totalPages ≤ 1 then Except.ok (some firstPage)
    else
      match firstPage.results with
      | none => Except.error ()
      | some firstResults =>
        match firstPage.page with
        | none => Except.error ()
        | some pinfo =>
          let allResults := collectPages pageFetch firstResults 2 (totalPages - 1)
          Except.ok (some { firstPage with
            results := some allResults,
            page := some { pinfo with totalRecords := allResults.length } })

/-- The results contributed by page `n`: the page's `results` when the
fetch succeeded and the key is present, else nothing. -/
def fetchedResults (pageFetch : Nat → Option Envelope) (n : Nat) : List RawRow :=
  ((pageFetch n).bind Envelope.results).getD []

/-! ## The encoded request builder -/

/-- The fixed B3 API endpoint (src/ETL/extract.py line 57). -/
def baseApiUrl : String :=
  "https://sistemaswebb3-listados.b3.com.br/indexProxy/indexCall/GetPortfolioDay"

/-- The parameter set encoded into the request target
(src/ETL/extract.py lines 92-97). -/
structure FetchParams where
  pageNumber : Nat
  pageSize : Nat
  language : String
  index : String
deriving DecidableEq

/-- JSON template piece by piece, in insertion order of the Python dict.
The pieces are kept as character lists so that list computations unfold
definitionally. -/
def tPageNumber : List Char := ['\x7b', '"', 'p', 'a', 'g', 'e', 'N', 'u', 'm', 'b', 'e', 'r', '"', ':']

/-- Tail of the separator before `pageSize`. -/
def tPageSizeTail : List Char := ['"', 'p', 'a', 'g', 'e', 'S', 'i', 'z', 'e', '"', ':']

/-- Separator before the `pageSize` value. -/
def tPageSize : List Char := ',' :: tPageSizeTail

/-- Tail of the separator before `language`. -/
def tLanguageTail : List Char := ['"', 'l', 'a', 'n', 'g', 'u', 'a', 'g', 'e', '"', ':', '"']

/-- Separator before the `language` value. -/
def tLanguage : List Char := ',' :: tLanguageTail

/-- Tail of the separator between `language` and `index`. -/
def tIndexSepTail : List Char := [',', '"', 'i', 'n', 'd', 'e', 'x', '"', ':', '"']

/-- Separator between the `language` and `index` values (closing quote of
`language` included). -/
def tIndexSep : List Char := '"' :: tIndexSepTail

/-- Closing quote and brace of the JSON object. -/
def tClose : List Char := ['"', '\x7d']

/-- `json.dumps(params, separators=(',', ':'))` (src/ETL/extract.py line
100): the compact JSON object in dict insertion order, for parameter
strings needing no JSON escaping. -/
def jsonChars (p : FetchParams) : List Char :=
  tPageNumber ++ (natToChars p.pageNumber ++ (tPageSize ++ (natToChars p.pageSize ++
    (tLanguage ++ (p.language.data ++ (tIndexSep ++ (p.index.data ++ tClose)))))))

/-- UTF-8 encoding of one character (`str.encode('utf-8')`). -/
def utf8Char (c : Char) : List Nat :=
  let n := c.toNat
  if n < 128 then [n]
  else if n < 2048 then [192 + n / 64, 128 + n % 64]
  else if n < 65536 then [224 + n / 4096, 128 + (n / 64) % 64, 128 + n % 64]
  else [240 + n / 262144, 128 + (n / 4096) % 64, 128 + (n / 64) % 64, 128 + n % 64]

/-- UTF-8 encoding of a character list, as a byte (Nat) list. -/
def utf8Bytes : List Char → List Nat
  | [] => []
  | c :: cs => utf8Char c ++ utf8Bytes cs

/-- The standard base64 alphabet. -/
def b64Alphabet : List Char :=
  "ABCDEFGHIJKLMNOPQRSTUVWXYZabcdefghijklmnopqrstuvwxyz0123456789+/".data

/-- The base64 character for a 6-bit value. -/
def b64Char (n : Nat) : Char := b64Alphabet.getD n '?'

/-- Index search in a character list. -/
def charIndexAux (c : Char) : List Char → Nat → Option Nat
  | [], _ => none
  | x :: xs, i => if x = c then some i else charIndexAux c xs (i + 1)

/-- The 6-bit value of a base64 character, if any. -/
def b64Index (c : Char) : Option Nat := charIndexAux c b64Alphabet 0

/-- `base64.b64encode` (src/ETL/extract.py line 101): encode bytes three at
a time into four base64 characters, padding with `=`. -/
def base64Chars : List Nat → List Char
  | [] => []
  | [a] => [b64Char (a / 4), b64Char (a % 4 * 16), '=', '=']
  | [a, b] => [b64Char (a / 4), b64Char (a % 4 * 16 + b / 16), b64Char (b % 16 * 4), '=']
  | a :: b :: c :: rest =>
    b64Char (a / 4) :: b64Char (a % 4 * 16 + b / 16) :: b64Char (b % 16 * 4 + c / 64) ::
      b64Char (c % 64) :: base64Chars rest

/-- Base64 decoding: four characters at a time, handling the two padded
final-group forms; rejects malformed input. -/
def base64Decode : List Char → Option (List Nat)
  | [] => some []
  | c1 :: c2 :: c3 :: c4 :: rest =>
    match b64Index c1, b64Index c2 with
    | some x1, some x2 =>
      if c3 = '=' then
        if c4 = '=' && rest.isEmpty then some [x1 * 4 + x2 / 16] else none
      else
        match b64Index c3 with
        | some x3 =>
          if c4 = '=' then
            if rest.isEmpty then some [x1 * 4 + x2 / 16, x2 % 16 * 16 + x3 / 4] else none
          else
            match b64Index c4, base64Decode rest with
            | some x4, some tail =>
              some ((x1 * 4 + x2 / 16) :: (x2 % 16 * 16 + x3 / 4) :: (x3 % 4 * 64 + x4) :: tail)
            | _, _ => none
        | none => none
    | _, _ => none
  | _ => none

/-- `B3DataExtractor._build_api_url` (src/ETL/extract.py lines 81-109):
serialize the parameters to compact JSON, UTF-8 encode, base64 encode, and
append to the fixed base endpoint after a slash. -/
def buildApiUrl (p : FetchParams) : String :=
  baseApiUrl ++ "/" ++ String.mk (base64Chars (utf8Bytes (jsonChars p)))

/-- Strip an expected character-list head, returning the remainder. -/
def stripHead : List Char → List Char → Option (List Char)
  | [], s => some s
  | _ :: _, [] => none
  | p :: ps, c :: cs => if c = p then stripHead ps cs else none

/-- Parse the compact JSON object produced by `jsonChars`, recovering the
parameter set. -/
def parseParams (cs : List Char) : Option FetchParams :=
  (stripHead tPageNumber cs).bind fun s1 =>
    let d1 := s1.takeWhile Char.isDigit
    if d1.isEmpty then none
    else
      (stripHead tPageSize (s1.dropWhile Char.isDigit)).bind fun s2 =>
        let d2 := s2.takeWhile Char.isDigit
        if d2.isEmpty then none
        else
          (stripHead tLanguage (s2.dropWhile Char.isDigit)).bind fun s3 =>
            let lang := s3.takeWhile (fun c => !(c == '"'))
            (stripHead tIndexSep (s3.dropWhile (fun c => !(c == '"')))).bind fun s4 =>
              let idx := s4.takeWhile (fun c => !(c == '"'))
              (stripHead tClose (s4.dropWhile (fun c => !(c == '"')))).bind fun s5 =>
                if s5.isEmpty then
                  some { pageNumber := parseNatChars d1, pageSize := parseNatChars d2,
                         language := String.mk lang, index := String.mk idx }
                else none

/-- Decode a request target built by `buildApiUrl`: strip the fixed
endpoint prefix, base64-decode the payload, UTF-8 decode (ASCII content),
and JSON-decode the parameter object. -/
def decodeRequestTarget (url : String) : Option FetchParams :=
  (stripHead (baseApiUrl ++ "/").data url.data).bind fun payload =>
    (base64Decode payload).bind fun bytes =>
      if bytes.all (fun b => b < 128) then parseParams (bytes.map Char.ofNat) else none

/-! ## Concrete fixtures used by the claim instances -/

/-- Example record: company A, ticker x. -/
def rowAx : RawRow := { cod := some "x", asset := some "A", part := some 1, theoricalQty := some 10 }

/-- Example record: company A, ticker y. -/
def rowAy : RawRow := { cod := some "y", asset := some "A", part := some 2, theoricalQty := some 20 }

/-- Example record: company B, ticker z. -/
def rowBz : RawRow := { cod := some "z", asset := some "B", part := some 5, theoricalQty := some 50 }

/-- Example input frame for the aggregation example. -/
def dfEx3 : Frame :=
  { columns := ["cod", "asset", "part", "theoricalQty"], rows := [rowAx, rowAy, rowBz] }

/-- Example frame for the write/read round trip. -/
def dfEx6 : Frame := { columns := ["cod", "asset", "part", "theoricalQty"], rows := [rowAx] }

/-- Example frame missing the `part` and `theoricalQty` columns. -/
def dfEx7 : Frame := { columns := ["asset", "cod"], rows := [rowAx] }

/-- A record with no numeric values, company A. -/
def rowA0 : RawRow := { cod := some "a1", asset := some "A", part := none, theoricalQty := none }

/-- A record with no numeric values, company B. -/
def rowB0 : RawRow := { cod := some "b1", asset := some "B", part := none, theoricalQty := none }

/-- First frame for the output-order example: assets appear as B then A. -/
def dfEx10a : Frame :=
  { columns := ["cod", "asset", "part", "theoricalQty"], rows := [rowB0, rowA0] }

/-- Second frame for the output-order example: assets appear as A, B, A. -/
def dfEx10b : Frame :=
  { columns := ["cod", "asset", "part", "theoricalQty"], rows := [rowA0, rowB0, rowA0] }

/-- Attempt oracle whose every attempt fails with a transport error. -/
def attemptAllTransport : Nat → AttemptOutcome :=
  fun _ => AttemptOutcome.failed ErrKind.transportError

/-- Attempt oracle whose every attempt fails with a JSON parse error. -/
def attemptAllMalformed : Nat → AttemptOutcome :=
  fun _ => AttemptOutcome.failed ErrKind.malformedResponse

/-- Page oracle for the pagination example: page 1 reports three total
pages, page 2 fails after its retries, page 3 succeeds. -/
def pageFetchEx : Nat → Option Envelope := fun n =>
  if n = 1 then some { results := some [rowAx, rowAy], page := some { totalPages := 3, totalRecords := 2 } }
  else if n = 3 then some { results := some [rowBz], page := some { totalPages := 3, totalRecords := 1 } }
  else none

/-! ## Order lemmas for the executable string sort -/

/-- `lexLe` agrees with the negated strict lexicographic order. -/
theorem lexLe_iff : ∀ l₁ l₂ : List Char, lexLe l₁ l₂ = true ↔ ¬ List.Lex (· < ·) l₂ l₁
  | [], l₂ => by
    simp only [lexLe]
    exact iff_of_true trivial (fun h => by cases h)
  | _ :: _, [] => by
    simp only [lexLe]
    exact iff_of_false (by simp) (fun hn => hn List.Lex.nil)
  | a :: as, b :: bs => by
    by_cases hab : a < b
    · simp only [lexLe, if_pos hab]
      refine iff_of_true trivial (fun h => ?_)
      cases h with
      | rel h' => exact absurd h' (lt_asymm hab)
      | cons h' => exact lt_irrefl _ hab
    · by_cases hba : b < a
      · simp only [lexLe, if_neg hab, if_pos hba]
        exact iff_of_false (by simp) (fun hn => hn (List.Lex.rel hba))
      · have heq : a = b := le_antisymm (le_of_not_lt hba) (le_of_not_lt hab)
        subst heq
        simp only [lexLe, if_neg hab, if_neg hba]
        rw [lexLe_iff as bs]
        constructor
        · intro h hlex
          cases hlex with
          | rel h' => exact lt_irrefl _ h'
          | cons h' => exact h h'
        · exact fun h h' => h (List.Lex.cons h')

/-- `strLe` decides the `≤` linear order on strings. -/
theorem strLe_iff (s t : String) : strLe s t = true ↔ s ≤ t := by
  rw [strLe, lexLe_iff]
  exact not_congr String.lt_iff_toList_lt.symm

/-- Inserting permutes to consing. -/
theorem perm_insertSorted (a : String) : ∀ l : List String, (insertSorted a l).Perm (a :: l)
  | [] => List.Perm.refl _
  | b :: t => by
    simp only [insertSorted]
    split
    · exact List.Perm.refl _
    · exact ((perm_insertSorted a t).cons b).trans (List.Perm.swap a b t)

/-- The insertion sort permutes its input. -/
theorem perm_sortStrings : ∀ l : List String, (sortStrings l).Perm l
  | [] => List.Perm.refl _
  | x :: xs => by
    simp only [sortStrings, List.foldr_cons]
    exact (perm_insertSorted x _).trans ((perm_sortStrings xs).cons x)

/-- Inserting preserves ascending sortedness. -/
theorem sorted_insertSorted (a : String) :
    ∀ l : List String, l.Sorted (· ≤ ·) → (insertSorted a l).Sorted (· ≤ ·)
  | [], _ => by simp [insertSorted]
  | b :: t, h => by
    rw [List.sorted_cons] at h
    obtain ⟨hb, ht⟩ := h
    simp only [insertSorted]
    split
    case isTrue hle =>
      have hab : a ≤ b := (strLe_iff a b).1 hle
      rw [List.sorted_cons]
      refine ⟨fun y hy => ?_, List.sorted_cons.2 ⟨hb, ht⟩⟩
      rcases List.mem_cons.1 hy with h' | h'
      · exact h' ▸ hab
      · exact le_trans hab (hb y h')
    case isFalse hle =>
      have hba : b ≤ a := le_of_not_le (fun hab => hle ((strLe_iff a b).2 hab))
      rw [List.sorted_cons]
      refine ⟨fun y hy => ?_, sorted_insertSorted a t ht⟩
      rcases List.mem_cons.1 ((perm_insertSorted a t).mem_iff.1 hy) with h' | h'
      · exact h' ▸ hba
      · exact hb y h'

/-- The insertion sort sorts ascending. -/
theorem sorted_sortStrings : ∀ l : List String, (sortStrings l).Sorted (· ≤ ·)
  | [] => List.sorted_nil
  | x :: xs => by
    simp only [sortStrings, List.foldr_cons]
    exact sorted_insertSorted x _ (sorted_sortStrings xs)

/-- Membership in the sorted deduplication. -/
theorem mem_sortedUnique (a : String) (l : List String) : a ∈ sortedUnique l ↔ a ∈ l := by
  unfold sortedUnique
  rw [(perm_sortStrings l.dedup).mem_iff, List.mem_dedup]

/-- The sorted deduplication has no duplicates. -/
theorem nodup_sortedUnique (l : List String) : (sortedUnique l).Nodup :=
  (perm_sortStrings l.dedup).nodup_iff.2 (List.nodup_dedup l)

/-- The sorted deduplication is strictly ascending. -/
theorem sorted_lt_sortedUnique (l : List String) : (sortedUnique l).Sorted (· < ·) := by
  have hs := sorted_sortStrings l.dedup
  have hn := nodup_sortedUnique l
  rw [List.Sorted] at *
  exact (hs.and hn).imp fun h => lt_of_le_of_ne h.1 h.2

/-- Two lists with the same members have the same sorted deduplication. -/
theorem sortedUnique_eq_of_mem_iff {l₁ l₂ : List String} (h : ∀ a, a ∈ l₁ ↔ a ∈ l₂) :
    sortedUnique l₁ = sortedUnique l₂ := by
  refine List.eq_of_perm_of_sorted ?_ (sorted_sortStrings l₁.dedup) (sorted_sortStrings l₂.dedup)
  exact (List.perm_ext_iff_of_nodup (nodup_sortedUnique l₁) (nodup_sortedUnique l₂)).2
    (fun a => by rw [mem_sortedUnique, mem_sortedUnique]; exact h a)

/-! ## Aggregation lemmas -/

/-- The group keys of the aggregation output, in order. -/
theorem aggregateRows_keys (rows : List RawRow) (s : String) :
    (aggregateRows rows s).map AggRow.acao = sortedUnique (rows.filterMap RawRow.asset) := by
  unfold aggregateRows
  rw [List.map_map]
  exact List.map_id'' (fun a => rfl) _

/-- A `filterMap` over a list where the function is total agrees with the
defaulted `map`. -/
theorem filterMap_eq_map_getD {α β : Type} (f : α → Option β) (d : β) :
    ∀ l : List α, (∀ x ∈ l, (f x).isSome = true) →
      l.filterMap f = l.map (fun x => (f x).getD d)
  | [], _ => rfl
  | x :: xs, h => by
    obtain ⟨v, hv⟩ := Option.isSome_iff_exists.1 (h x (List.mem_cons_self x xs))
    simp only [List.filterMap_cons, List.map_cons, hv, Option.getD_some]
    rw [filterMap_eq_map_getD f d xs (fun y hy => h y (List.mem_cons_of_mem x hy))]

/-! ## Claim theorems: store and transformer -/

/-- C2 counterexample: the value `read_from_s3` returns for an absent
partition (`NoSuchKey`) is the very same `none` it returns for a missing
credential or any other client failure — the "not found" outcome is not
distinct from other I/O failure outcomes. -/
theorem read_not_found_indistinguishable :
    readFromS3Result (Except.error S3Err.noSuchKey) =
      readFromS3Result (Except.error S3Err.noCredentials) ∧
    readFromS3Result (Except.error S3Err.noSuchKey) =
      readFromS3Result (Except.error S3Err.otherClient) ∧
    readFromS3Result (Except.error S3Err.noSuchKey) = none :=
  ⟨rfl, rfl, rfl⟩

/-- C2 (amended): for a date whose partition object is absent, `read`
returns the failure marker `None` without raising; this marker is the same
one returned for every other I/O failure (the `NoSuchKey` case is
distinguished only in the log line), so the returned value does not let a
caller tell "no data yet" from "store unreachable". -/
theorem read_absent_returns_none (store : Store) (d : PartitionDate)
    (h : store.lookup (s3KeyTransform d) = none) :
    readFromS3 store d = none ∧
    s3GetObject store (s3KeyTransform d) = Except.error S3Err.noSuchKey ∧
    (∀ e : S3Err, readFromS3Result (Except.error e) = none) := by
  have hget : s3GetObject store (s3KeyTransform d) = Except.error S3Err.noSuchKey := by
    simp [s3GetObject, h]
  refine ⟨?_, hget, fun e => by cases e <;> rfl⟩
  unfold readFromS3
  rw [hget]
  rfl

/-- C2 witness: reading any date from the empty store returns `None`. -/
theorem read_absent_returns_none_instance :
    readFromS3 ([] : Store) { year := 2024, month := 1, day := 2 } = none :=
  (read_absent_returns_none ([] : Store) { year := 2024, month := 1, day := 2 } rfl).1

/-- C5 counterexample: after all retries fail, `extract_data` returns the
bare `None` whatever the kind of the last error was — two runs whose
attempts fail with different error kinds produce identical results, so the
returned failure does not carry the error's kind. -/
theorem extract_failure_kind_not_carried :
    extractData attemptAllTransport 3 = extractData attemptAllMalformed 3 ∧
    extractData attemptAllTransport 3 = none :=
  ⟨rfl, rfl⟩

/-- Exhausted retry loops return `None` from any starting attempt index. -/
theorem extractDataAux_all_failed (attempt : Nat → AttemptOutcome) :
    ∀ (remaining i : Nat),
      (∀ j, j < remaining → ∃ k, attempt (i + j) = AttemptOutcome.failed k) →
      extractDataAux attempt i remaining = none
  | 0, _, _ => rfl
  | remaining + 1, i, h => by
    obtain ⟨k, hk⟩ := h 0 (Nat.succ_pos _)
    rw [Nat.add_zero] at hk
    simp only [extractDataAux, hk]
    exact extractDataAux_all_failed attempt remaining (i + 1) (fun j hj => by
      have hx := h (j + 1) (by omega)
      rwa [show i + (j + 1) = i + 1 + j by omega] at hx)

/-- C5 (amended): when every one of the `maxRetries` attempts fails (with
any of the three caught error kinds), `extract_data` returns the terminal
failure `None` to its caller — a total function of the attempt outcomes, so
the error is never propagated as an uncaught fault — but that `None`
carries no error kind; the kind appears only in the log. -/
theorem extract_retries_exhausted_none (attempt : Nat → AttemptOutcome) (maxRetries : Nat)
    (h : ∀ i, i < maxRetries → ∃ k, attempt i = AttemptOutcome.failed k) :
    extractData attempt maxRetries = none :=
  extractDataAux_all_failed attempt maxRetries 0 (fun j hj => by simpa using h j hj)

/-- C5 witness: three transport-failed attempts yield `None`. -/
theorem extract_retries_exhausted_none_instance : extractData attemptAllTransport 3 = none :=
  extract_retries_exhausted_none attemptAllTransport 3
    (fun _ _ => ⟨ErrKind.transportError, rfl⟩)

/-- C6: `write` then `read` for the same date over the key-value blob store
returns exactly the frame that was written, because both modules compute
the identical deterministic partition path for the date. -/
theorem write_read_roundtrip (df : Frame) (d : PartitionDate) (store : Store)
    (h : df.rows ≠ []) :
    s3KeyExtract d = s3KeyTransform d ∧
    (saveToS3 none df d store).1 = true ∧
    readFromS3 (saveToS3 none df d store).2 d = some df := by
  have hkey : s3KeyExtract d = s3KeyTransform d := rfl
  have hsave : saveToS3 none df d store = (true, (s3KeyExtract d, df) :: store) := by
    simp [saveToS3, h]
  refine ⟨hkey, by rw [hsave], ?_⟩
  rw [hsave]
  show readFromS3Result (s3GetObject ((s3KeyExtract d, df) :: store) (s3KeyTransform d)) = some df
  rw [← hkey]
  simp [s3GetObject, List.lookup, readFromS3Result]

/-- C6 witness: a one-record frame written under 2024-03-07 is read back
field-for-field equal. -/
theorem write_read_roundtrip_instance :
    readFromS3 (saveToS3 none dfEx6 { year := 2024, month := 3, day := 7 } ([] : Store)).2
      { year := 2024, month := 3, day := 7 } = some dfEx6 :=
  (write_read_roundtrip dfEx6 { year := 2024, month := 3, day := 7 } ([] : Store)
    (by decide)).2.2

/-- C7: if any of the four required columns is absent, `transform_data`
raises the fatal schema error carrying the missing columns (no silent
skip), and the enclosing `transform_and_save` catches it and reports
failure (`False`) to the orchestrator instead of raising. -/
theorem transform_missing_columns_aborts (df : Frame) (t : PartitionDate)
    (h : ∃ c ∈ requiredColumns, c ∉ df.columns) :
    (∃ missing, transformData df t = Except.error missing ∧ missing ≠ []) ∧
    (∀ uploadErr, transformAndSave (Except.ok df) uploadErr t = false) := by
  obtain ⟨c, hc, hnc⟩ := h
  have hmem : c ∈ requiredColumns.filter (fun c => decide (c ∉ df.columns)) :=
    List.mem_filter.2 ⟨hc, by simpa using hnc⟩
  have hne : requiredColumns.filter (fun c => decide (c ∉ df.columns)) ≠ [] :=
    List.ne_nil_of_mem hmem
  have herr : transformData df t =
      Except.error (requiredColumns.filter (fun c => decide (c ∉ df.columns))) := by
    simp only [transformData]
    rw [if_neg hne]
  refine ⟨⟨_, herr, hne⟩, fun uploadErr => ?_⟩
  show (match transformData df t with
    | Except.error _ => false
    | Except.ok out => saveTransformedToS3 uploadErr out) = false
  rw [herr]

/-- C7 witness: a frame with only the columns `asset` and `cod` aborts the
transform, and `transform_and_save` reports failure. -/
theorem transform_missing_columns_aborts_instance :
    transformAndSave (Except.ok dfEx7) none { year := 2024, month := 1, day := 2 } = false :=
  (transform_missing_columns_aborts dfEx7 { year := 2024, month := 1, day := 2 }
    (by decide)).2 none

/-- C8: `write` called with an empty record set returns `False` and leaves
the store state unchanged (the rejection happens before any store
interaction, whatever the upload outcome would have been). -/
theorem save_empty_no_mutation (uploadErr : Option S3Err) (cols : List String)
    (d : PartitionDate) (store : Store) :
    saveToS3 uploadErr { columns := cols, rows := [] } d store = (false, store) := by
  simp [saveToS3]

/-- C3: on a record set carrying the four required fields (with values
present), `transform_data` produces exactly one output row per distinct
asset, whose `qtd_codigo` counts the rows sharing that asset, and whose
`participacao` and `qtd_teorica_total` sum `part` and `theoricalQty` over
those rows; in particular the three-record example with assets A, A, B
yields exactly the rows (A, 2, 3.0, 30) and (B, 1, 5.0, 50). -/
theorem transform_data_aggregates :
    (∀ (df : Frame) (t : PartitionDate),
      (∀ c ∈ requiredColumns, c ∈ df.columns) →
      (∀ r ∈ df.rows, r.cod.isSome = true) →
      (∀ r ∈ df.rows, r.part.isSome = true) →
      (∀ r ∈ df.rows, r.theoricalQty.isSome = true) →
      ∃ out, transformData df t = Except.ok out ∧
        (out.map AggRow.acao).Nodup ∧
        (∀ a : String, a ∈ out.map AggRow.acao ↔ some a ∈ df.rows.map RawRow.asset) ∧
        (∀ row ∈ out,
          row.qtd_codigo =
            (df.rows.filter (fun r => decide (r.asset = some row.acao))).length ∧
          row.participacao =
            ((df.rows.filter (fun r => decide (r.asset = some row.acao))).map
              (fun r => r.part.getD 0)).sum ∧
          row.qtd_teorica_total =
            ((df.rows.filter (fun r => decide (r.asset = some row.acao))).map
              (fun r => r.theoricalQty.getD 0)).sum)) ∧
    transformData dfEx3 { year := 2024, month := 1, day := 2 } = Except.ok
      [{ acao := "A", qtd_codigo := 2, participacao := 3, qtd_teorica_total := 30,
         data := "2024-01-02" },
       { acao := "B", qtd_codigo := 1, participacao := 5, qtd_teorica_total := 50,
         data := "2024-01-02" }] := by
  constructor
  · intro df t hcols hcod hpart hqty
    have hmiss : requiredColumns.filter (fun c => decide (c ∉ df.columns)) = [] :=
      List.filter_eq_nil_iff.2 (fun c hc => by simpa using hcols c hc)
    have hok : transformData df t = Except.ok (aggregateRows df.rows (formatIsoDate t)) := by
      simp only [transformData]
      rw [if_pos hmiss]
    refine ⟨_, hok, ?_, ?_, ?_⟩
    · rw [aggregateRows_keys]
      exact nodup_sortedUnique _
    · intro a
      rw [aggregateRows_keys, mem_sortedUnique]
      simp [List.mem_filterMap, List.mem_map, eq_comm]
    · intro row hrow
      obtain ⟨a, _, rfl⟩ := List.mem_map.1 hrow
      have hgrp : ∀ r ∈ groupRows df.rows a, r ∈ df.rows :=
        fun r hr => List.mem_of_mem_filter hr
      refine ⟨?_, ?_, ?_⟩
      · show ((groupRows df.rows a).filter (fun r => r.cod.isSome)).length = _
        rw [List.filter_eq_self.2 (fun r hr => hcod r (hgrp r hr))]
        rfl
      · show ((groupRows df.rows a).filterMap RawRow.part).sum = _
        rw [filterMap_eq_map_getD RawRow.part 0 _ (fun r hr => hpart r (hgrp r hr))]
        rfl
      · show ((groupRows df.rows a).filterMap RawRow.theoricalQty).sum = _
        rw [filterMap_eq_map_getD RawRow.theoricalQty 0 _ (fun r hr => hqty r (hgrp r hr))]
        rfl
  · with_unfolding_all decide

/-- C3 witness: the general aggregation theorem instantiated at the
three-record example frame. -/
theorem transform_data_aggregates_instance :
    ∃ out, transformData dfEx3 { year := 2024, month := 1, day := 2 } = Except.ok out ∧
      (out.map AggRow.acao).Nodup ∧
      (∀ a : String, a ∈ out.map AggRow.acao ↔ some a ∈ dfEx3.rows.map RawRow.asset) ∧
      (∀ row ∈ out,
        row.qtd_codigo =
          (dfEx3.rows.filter (fun r => decide (r.asset = some row.acao))).length ∧
        row.participacao =
          ((dfEx3.rows.filter (fun r => decide (r.asset = some row.acao))).map
            (fun r => r.part.getD 0)).sum ∧
        row.qtd_teorica_total =
          ((dfEx3.rows.filter (fun r => decide (r.asset = some row.acao))).map
            (fun r => r.theoricalQty.getD 0)).sum) :=
  transform_data_aggregates.1 dfEx3 { year := 2024, month := 1, day := 2 }
    (by decide) (by decide) (by decide) (by decide)

/-- C10: the aggregate output rows are ordered by the grouping key `acao`
in ascending (strictly increasing) sorted order — the pandas `groupby`
default — so the output key order depends only on the set of asset values
present in the input, not on their first-occurrence order. -/
theorem transform_output_order_sorted
    (df₁ df₂ : Frame) (t₁ t₂ : PartitionDate) (out₁ out₂ : List AggRow)
    (h₁ : transformData df₁ t₁ = Except.ok out₁)
    (h₂ : transformData df₂ t₂ = Except.ok out₂)
    (hsub₁ : ∀ a ∈ df₁.rows.filterMap RawRow.asset, a ∈ df₂.rows.filterMap RawRow.asset)
    (hsub₂ : ∀ a ∈ df₂.rows.filterMap RawRow.asset, a ∈ df₁.rows.filterMap RawRow.asset) :
    List.Chain' (· < ·) (out₁.map AggRow.acao) ∧
    out₁.map AggRow.acao = out₂.map AggRow.acao := by
  have e₁ : out₁ = aggregateRows df₁.rows (formatIsoDate t₁) := by
    simp only [transformData] at h₁
    split at h₁
    · cases h₁; rfl
    · cases h₁
  have e₂ : out₂ = aggregateRows df₂.rows (formatIsoDate t₂) := by
    simp only [transformData] at h₂
    split at h₂
    · cases h₂; rfl
    · cases h₂
  subst e₁ e₂
  rw [aggregateRows_keys, aggregateRows_keys]
  constructor
  · exact List.chain'_iff_pairwise.2 (sorted_lt_sortedUnique _)
  · exact sortedUnique_eq_of_mem_iff (fun a => ⟨hsub₁ a, hsub₂ a⟩)

/-- C10 witness: two frames with the same asset set {A, B} in different
first-occurrence orders produce identically ordered, strictly ascending
output keys. -/
theorem transform_output_order_sorted_instance :
    List.Chain' (· < ·)
      (([{ acao := "A", qtd_codigo := 1, participacao := 0, qtd_teorica_total := 0,
           data := "2024-01-02" },
         { acao := "B", qtd_codigo := 1, participacao := 0, qtd_teorica_total := 0,
           data := "2024-01-02" }] : List AggRow).map AggRow.acao) ∧
    ([{ acao := "A", qtd_codigo := 1, participacao := 0, qtd_teorica_total := 0,
        data := "2024-01-02" },
      { acao := "B", qtd_codigo := 1, participacao := 0, qtd_teorica_total := 0,
        data := "2024-01-02" }] : List AggRow).map AggRow.acao =
    ([{ acao := "A", qtd_codigo := 2, participacao := 0, qtd_teorica_total := 0,
        data := "2025-06-30" },
      { acao := "B", qtd_codigo := 1, participacao := 0, qtd_teorica_total := 0,
        data := "2025-06-30" }] : List AggRow).map AggRow.acao :=
  transform_output_order_sorted dfEx10a dfEx10b
    { year := 2024, month := 1, day := 2 } { year := 2025, month := 6, day := 30 } _ _
    (by decide) (by decide) (by decide) (by decide)

/-! ## Claim theorems: the paginated retriever -/

/-- The page loop accumulates, in page order, exactly the results of the
successfully fetched pages (a failed or `results`-less page contributing
nothing). -/
theorem collectPages_eq (pageFetch : Nat → Option Envelope) :
    ∀ (count start : Nat) (acc : List RawRow),
      collectPages pageFetch acc start count =
        acc ++ ((List.range' start count).map (fetchedResults pageFetch)).flatten
  | 0, start, acc => by simp [collectPages]
  | count + 1, start, acc => by
    have hrange : List.range' start (count + 1) = start :: List.range' (start + 1) count :=
      List.range'_succ start count 1
    cases hpf : pageFetch start with
    | none =>
      have hfr : fetchedResults pageFetch start = [] := by simp [fetchedResults, hpf]
      simp only [collectPages, hpf]
      rw [collectPages_eq pageFetch count (start + 1) acc, hrange, List.map_cons,
        List.flatten_cons, hfr, List.nil_append]
    | some pd =>
      cases hres : pd.results with
      | none =>
        have hfr : fetchedResults pageFetch start = [] := by simp [fetchedResults, hpf, hres]
        simp only [collectPages, hpf, hres]
        rw [collectPages_eq pageFetch count (start + 1) acc, hrange, List.map_cons,
          List.flatten_cons, hfr, List.nil_append]
      | some rs =>
        have hfr : fetchedResults pageFetch start = rs := by simp [fetchedResults, hpf, hres]
        simp only [collectPages, hpf, hres]
        rw [collectPages_eq pageFetch count (start + 1) (acc ++ rs), hrange, List.map_cons,
          List.flatten_cons, hfr, List.append_assoc]

/-- C1: on a multi-page source (first page fetched successfully, its `page`
block reporting `totalPages > 1`), `extract_all_pages` returns an envelope
whose `results` is the concatenation of every successfully fetched page's
results in page-ascending, within-page-original order — a page failing
after its retries is skipped, contributing nothing, rather than aborting
the fetch — and whose `page.totalRecords` equals the length of that
concatenation. -/
theorem extract_all_pages_concat (pageFetch : Nat → Option Envelope)
    (first : Envelope) (rs : List RawRow) (pinfo : PageInfo)
    (h1 : pageFetch 1 = some first) (hr : first.results = some rs)
    (hp : first.page = some pinfo) (hN : 1 < pinfo.totalPages) :
    extractAllPages pageFetch = Except.ok (some
      { results := some (rs ++
            ((List.range' 2 (pinfo.totalPages - 1)).map (fetchedResults pageFetch)).flatten),
        page := some
          { totalPages := pinfo.totalPages,
            totalRecords := (rs ++
              ((List.range' 2 (pinfo.totalPages - 1)).map
                (fetchedResults pageFetch)).flatten).length } }) := by
  obtain ⟨fres, fpage⟩ := first
  simp only at hr hp
  subst hr hp
  simp only [extractAllPages, h1, Option.map_some', Option.getD_some]
  rw [if_neg (by omega)]
  rw [collectPages_eq pageFetch (pinfo.totalPages - 1) 2 rs]

/-- C1 witness: with three reported pages, page 2 failing after its
retries, the consolidated envelope holds pages 1 and 3 in order and
recomputes `totalRecords` to 3. -/
theorem extract_all_pages_concat_instance :
    extractAllPages pageFetchEx = Except.ok (some
      { results := some [rowAx, rowAy, rowBz],
        page := some { totalPages := 3, totalRecords := 3 } }) ∧
    pageFetchEx 2 = none :=
  ⟨(extract_all_pages_concat pageFetchEx
      { results := some [rowAx, rowAy],
        page := some { totalPages := 3, totalRecords := 2 } }
      [rowAx, rowAy] { totalPages := 3, totalRecords := 2 }
      rfl rfl rfl (by decide)).trans (by decide), rfl⟩

/-! ## Claim theorems: the record normalizer -/

/-- C4: the normalizer's numeric coercion strips every character that is
not a digit, comma, period, or minus sign, replaces commas with periods and
parses the result, unparsable values becoming the missing-value marker
rather than a crash (the embedded coercion agrees with the specification's
step-by-step description on every input); in particular `"2,85"` parses to
the number 2.85, `"abc"` coerces to the missing marker, and the string
field `"  PETR4 "` is trimmed to `"PETR4"`. -/
theorem clean_dataframe_coercion :
    (∀ s : String, cleanNumericField s = coerceNumericSpec s) ∧
    cleanNumericField "2,85" = some (57 / 20 : ℚ) ∧
    cleanNumericField "abc" = none ∧
    cleanStringField "  PETR4 " = some "PETR4" :=
  ⟨fun _ => rfl, by with_unfolding_all decide, by decide, by decide⟩

/-! ## Claim theorems: the encoded request builder -/

/-- The digit characters are digits with the expected code points. -/
theorem digitChar_spec : ∀ n, n < 10 →
    (digitChar n).isDigit = true ∧ (digitChar n).toNat = 48 + n := by decide

/-- The fuelled decimal printer is correct whenever the fuel bounds the
number: nonempty output, all digits, and parsing recovers the number. -/
theorem natDigitsAux_spec : ∀ (fuel n : Nat), n < 10 ^ (fuel + 1) →
    natDigitsAux (fuel + 1) n ≠ [] ∧
    (∀ c ∈ natDigitsAux (fuel + 1) n, c.isDigit = true) ∧
    parseNatChars (natDigitsAux (fuel + 1) n) = n
  | 0, n, h => by
    have hn : n < 10 := by simpa using h
    simp only [natDigitsAux, if_pos hn]
    obtain ⟨hd1, hd2⟩ := digitChar_spec n hn
    refine ⟨by simp, ?_, ?_⟩
    · intro c hc; rw [List.mem_singleton.1 hc]; exact hd1
    · rw [parseNatChars]; simp only [List.foldl_cons, List.foldl_nil, hd2]; omega
  | fuel + 1, n, h => by
    by_cases hn : n < 10
    · simp only [natDigitsAux, if_pos hn]
      obtain ⟨hd1, hd2⟩ := digitChar_spec n hn
      refine ⟨by simp, ?_, ?_⟩
      · intro c hc; rw [List.mem_singleton.1 hc]; exact hd1
      · rw [parseNatChars]; simp only [List.foldl_cons, List.foldl_nil, hd2]; omega
    · have hdiv : n / 10 < 10 ^ (fuel + 1) := by
        rw [Nat.div_lt_iff_lt_mul (by norm_num)]
        calc n < 10 ^ (fuel + 1 + 1) := h
          _ = 10 ^ (fuel + 1) * 10 := by ring
      obtain ⟨ih1, ih2, ih3⟩ := natDigitsAux_spec fuel (n / 10) hdiv
      obtain ⟨hd1, hd2⟩ := digitChar_spec (n % 10) (Nat.mod_lt n (by norm_num))
      simp only [natDigitsAux, if_neg hn]
      refine ⟨by simp, ?_, ?_⟩
      · intro c hc
        rcases List.mem_append.1 hc with h' | h'
        · exact ih2 c h'
        · rw [List.mem_singleton.1 h']; exact hd1
      · rw [parseNatChars, List.foldl_append]
        simp only [List.foldl_cons, List.foldl_nil]
        have hdigits : List.foldl (fun acc c => acc * 10 + (c.toNat - 48)) 0
            (natDigitsAux (fuel + 1) (n / 10)) = n / 10 := ih3
        simp only [natDigitsAux] at hdigits
        rw [hdigits, hd2]
        omega

/-- The decimal printer is correct. -/
theorem natToChars_spec (n : Nat) :
    natToChars n ≠ [] ∧ (∀ c ∈ natToChars n, c.isDigit = true) ∧
      parseNatChars (natToChars n) = n := by
  have h1 : n < 10 ^ n := Nat.lt_pow_self (by norm_num) n
  have h2 : (10 : ℕ) ^ n ≤ 10 ^ (n + 1) := Nat.pow_le_pow_right (by norm_num) (Nat.le_succ n)
  exact natDigitsAux_spec n n (lt_of_lt_of_le h1 h2)

/-- `takeWhile` and `dropWhile` split an append whose left part satisfies
the predicate and whose right part starts with a violation. -/
theorem takeWhile_append_not (p : Char → Bool) :
    ∀ (xs : List Char) (y : Char) (rest : List Char),
      (∀ x ∈ xs, p x = true) → p y = false →
      (xs ++ y :: rest).takeWhile p = xs ∧ (xs ++ y :: rest).dropWhile p = y :: rest
  | [], y, rest, _, hy => by simp [List.takeWhile_cons, List.dropWhile_cons, hy]
  | x :: xs, y, rest, hxs, hy => by
    have hx := hxs x (List.mem_cons_self x xs)
    have ih := takeWhile_append_not p xs y rest (fun z hz => hxs z (List.mem_cons_of_mem x hz)) hy
    simp [List.takeWhile_cons, List.dropWhile_cons, hx, ih.1, ih.2]

/-- Stripping an expected head off itself-plus-rest yields the rest. -/
theorem stripHead_append : ∀ (pre rest : List Char), stripHead pre (pre ++ rest) = some rest
  | [], _ => rfl
  | p :: ps, rest => by simp [stripHead, stripHead_append ps rest]

/-- Decoding a base64 character of a 6-bit value recovers the value. -/
theorem b64Index_b64Char : ∀ x, x < 64 → b64Index (b64Char x) = some x := by decide

/-- No base64 character of a 6-bit value is the padding character. -/
theorem b64Char_ne_pad : ∀ x, x < 64 → ¬(b64Char x = '=') := by decide

/-- Base64 decoding inverts base64 encoding on byte lists. -/
theorem base64_roundtrip : ∀ l : List Nat, (∀ x ∈ l, x < 256) →
    base64Decode (base64Chars l) = some l
  | [], _ => rfl
  | [a], h => by
    have ha : a < 256 := h a (by simp)
    have h1 := b64Index_b64Char (a / 4) (by omega)
    have h2 := b64Index_b64Char (a % 4 * 16) (by omega)
    simp [base64Chars, base64Decode, h1, h2]
    omega
  | [a, b], h => by
    have ha : a < 256 := h a (by simp)
    have hb : b < 256 := h b (by simp)
    have h1 := b64Index_b64Char (a / 4) (by omega)
    have h2 := b64Index_b64Char (a % 4 * 16 + b / 16) (by omega)
    have h3 := b64Index_b64Char (b % 16 * 4) (by omega)
    have hne : ¬(b64Char (a % 4 * 16 + b / 16) = '=') := b64Char_ne_pad _ (by omega)
    have hne3 : ¬(b64Char (b % 16 * 4) = '=') := b64Char_ne_pad _ (by omega)
    simp [base64Chars, base64Decode, h1, h2, h3, hne3]
    omega
  | a :: b :: c :: rest, h => by
    have ha : a < 256 := h a (by simp)
    have hb : b < 256 := h b (by simp)
    have hc : c < 256 := h c (by simp)
    have ih := base64_roundtrip rest (fun x hx => h x (by simp [hx]))
    have h1 := b64Index_b64Char (a / 4) (by omega)
    have h2 := b64Index_b64Char (a % 4 * 16 + b / 16) (by omega)
    have h3 := b64Index_b64Char (b % 16 * 4 + c / 64) (by omega)
    have h4 := b64Index_b64Char (c % 64) (by omega)
    have hne3 : ¬(b64Char (b % 16 * 4 + c / 64) = '=') := b64Char_ne_pad _ (by omega)
    have hne4 : ¬(b64Char (c % 64) = '=') := b64Char_ne_pad _ (by omega)
    simp [base64Chars, base64Decode, h1, h2, h3, h4, hne3, hne4, ih]
    omega

/-- UTF-8 encodes an ASCII character as its single code point. -/
theorem utf8Char_ascii (c : Char) (h : c.toNat < 128) : utf8Char c = [c.toNat] := by
  simp [utf8Char, h]

/-- UTF-8 encodes an ASCII character list as its code-point list. -/
theorem utf8Bytes_ascii : ∀ l : List Char, (∀ c ∈ l, c.toNat < 128) →
    utf8Bytes l = l.map Char.toNat
  | [], _ => rfl
  | c :: cs, h => by
    simp only [utf8Bytes, List.map_cons]
    rw [utf8Char_ascii c (h c (List.mem_cons_self c cs)),
      utf8Bytes_ascii cs (fun x hx => h x (List.mem_cons_of_mem c hx))]
    rfl

/-- Digit characters are ASCII. -/
theorem char_isDigit_lt128 (d : Char) (hd : d.isDigit = true) : d.toNat < 128 := by
  simp [Char.isDigit] at hd
  obtain ⟨-, h2⟩ := hd
  have h3 : d.toNat ≤ 57 := h2
  omega

/-- The template pieces of the JSON object are ASCII. -/
theorem templates_ascii :
    (∀ c ∈ tPageNumber, c.toNat < 128) ∧ (∀ c ∈ tPageSize, c.toNat < 128) ∧
    (∀ c ∈ tLanguage, c.toNat < 128) ∧ (∀ c ∈ tIndexSep, c.toNat < 128) ∧
    (∀ c ∈ tClose, c.toNat < 128) := by decide

/-- The serialized JSON object is ASCII when the string parameters are. -/
theorem jsonChars_ascii (p : FetchParams)
    (hL : ∀ c ∈ p.language.data, c.toNat < 128)
    (hI : ∀ c ∈ p.index.data, c.toNat < 128) :
    ∀ c ∈ jsonChars p, c.toNat < 128 := by
  intro c hc
  simp only [jsonChars, List.mem_append] at hc
  rcases hc with h | h | h | h | h | h | h | h | h
  · exact templates_ascii.1 c h
  · exact char_isDigit_lt128 c ((natToChars_spec p.pageNumber).2.1 c h)
  · exact templates_ascii.2.1 c h
  · exact char_isDigit_lt128 c ((natToChars_spec p.pageSize).2.1 c h)
  · exact templates_ascii.2.2.1 c h
  · exact hL c h
  · exact templates_ascii.2.2.2.1 c h
  · exact hI c h
  · exact templates_ascii.2.2.2.2 c h

/-- Parsing the compact JSON serialization recovers the parameter set, for
parameter strings that contain no quote character. -/
theorem parseParams_jsonChars (p : FetchParams)
    (hL : ∀ c ∈ p.language.data, ¬(c = '"'))
    (hI : ∀ c ∈ p.index.data, ¬(c = '"')) :
    parseParams (jsonChars p) = some p := by
  obtain ⟨hne1, hdig1, hval1⟩ := natToChars_spec p.pageNumber
  obtain ⟨hne2, hdig2, hval2⟩ := natToChars_spec p.pageSize
  have hqL : ∀ x ∈ p.language.data, (fun c => !(c == '"')) x = true := by
    intro x hx
    simp [hL x hx]
  have hqI : ∀ x ∈ p.index.data, (fun c => !(c == '"')) x = true := by
    intro x hx
    simp [hI x hx]
  have t2 : ((natToChars p.pageNumber ++ (tPageSize ++ (natToChars p.pageSize ++
      (tLanguage ++ (p.language.data ++ (tIndexSep ++ (p.index.data ++ tClose))))))).takeWhile
        Char.isDigit) = natToChars p.pageNumber :=
    (takeWhile_append_not Char.isDigit _ ',' _ hdig1 rfl).1
  have t3 : ((natToChars p.pageNumber ++ (tPageSize ++ (natToChars p.pageSize ++
      (tLanguage ++ (p.language.data ++ (tIndexSep ++ (p.index.data ++ tClose))))))).dropWhile
        Char.isDigit) = tPageSize ++ (natToChars p.pageSize ++
      (tLanguage ++ (p.language.data ++ (tIndexSep ++ (p.index.data ++ tClose))))) :=
    (takeWhile_append_not Char.isDigit _ ',' _ hdig1 rfl).2
  have t4 : ((natToChars p.pageSize ++
      (tLanguage ++ (p.language.data ++ (tIndexSep ++ (p.index.data ++ tClose))))).takeWhile
        Char.isDigit) = natToChars p.pageSize :=
    (takeWhile_append_not Char.isDigit _ ',' _ hdig2 rfl).1
  have t5 : ((natToChars p.pageSize ++
      (tLanguage ++ (p.language.data ++ (tIndexSep ++ (p.index.data ++ tClose))))).dropWhile
        Char.isDigit) = tLanguage ++ (p.language.data ++ (tIndexSep ++ (p.index.data ++ tClose))) :=
    (takeWhile_append_not Char.isDigit _ ',' _ hdig2 rfl).2
  have t6 : ((p.language.data ++ (tIndexSep ++ (p.index.data ++ tClose))).takeWhile
        (fun c => !(c == '"'))) = p.language.data :=
    (takeWhile_append_not (fun c => !(c == '"')) _ '"' _ hqL rfl).1
  have t7 : ((p.language.data ++ (tIndexSep ++ (p.index.data ++ tClose))).dropWhile
        (fun c => !(c == '"'))) = tIndexSep ++ (p.index.data ++ tClose) :=
    (takeWhile_append_not (fun c => !(c == '"')) _ '"' _ hqL rfl).2
  have t8 : ((p.index.data ++ tClose).takeWhile (fun c => !(c == '"'))) = p.index.data :=
    (takeWhile_append_not (fun c => !(c == '"')) _ '"' _ hqI rfl).1
  have t9 : ((p.index.data ++ tClose).dropWhile (fun c => !(c == '"'))) = tClose :=
    (takeWhile_append_not (fun c => !(c == '"')) _ '"' _ hqI rfl).2
  have t10 : stripHead tClose tClose = some ([] : List Char) := rfl
  have hif1 : (natToChars p.pageNumber).isEmpty = false := by
    simpa [List.isEmpty_iff] using hne1
  have hif2 : (natToChars p.pageSize).isEmpty = false := by
    simpa [List.isEmpty_iff] using hne2
  simp only [parseParams, jsonChars, stripHead_append, Option.some_bind, t2, t3, t4, t5, t6,
    t7, t8, t9, t10, hif1, hif2, Bool.false_eq_true, if_false, List.isEmpty_nil, if_true,
    hval1, hval2]

/-- C9: for a valid parameter set (string tags being printable ASCII
without JSON-escaped characters), `_build_api_url` is deterministic — equal
inputs give byte-identical request targets — and base64-decoding then
JSON-decoding the payload embedded in the target returns exactly the
original parameter set. -/
theorem build_api_url_roundtrip (p : FetchParams)
    (hL : ∀ c ∈ p.language.data, 32 ≤ c.toNat ∧ c.toNat < 128 ∧ ¬(c = '"') ∧ ¬(c = '\\'))
    (hI : ∀ c ∈ p.index.data, 32 ≤ c.toNat ∧ c.toNat < 128 ∧ ¬(c = '"') ∧ ¬(c = '\\')) :
    (∀ q : FetchParams, q = p → buildApiUrl q = buildApiUrl p) ∧
    decodeRequestTarget (buildApiUrl p) = some p := by
  refine ⟨fun q hq => by rw [hq], ?_⟩
  have hascii : ∀ c ∈ jsonChars p, c.toNat < 128 :=
    jsonChars_ascii p (fun c hc => (hL c hc).2.1) (fun c hc => (hI c hc).2.1)
  have hbytes : utf8Bytes (jsonChars p) = (jsonChars p).map Char.toNat :=
    utf8Bytes_ascii _ hascii
  have hlt256 : ∀ b ∈ utf8Bytes (jsonChars p), b < 256 := by
    rw [hbytes]
    intro b hb
    obtain ⟨c, hc, rfl⟩ := List.mem_map.1 hb
    exact lt_trans (hascii c hc) (by norm_num)
  have hdata : (buildApiUrl p).data =
      (baseApiUrl ++ "/").data ++ base64Chars (utf8Bytes (jsonChars p)) := by
    show ((baseApiUrl ++ "/") ++ String.mk (base64Chars (utf8Bytes (jsonChars p)))).data = _
    rw [String.data_append]
  have hall : (utf8Bytes (jsonChars p)).all (fun b => decide (b < 128)) = true := by
    rw [List.all_eq_true]
    intro b hb
    rw [hbytes] at hb
    obtain ⟨c, hc, rfl⟩ := List.mem_map.1 hb
    simpa using hascii c hc
  have hmap : (utf8Bytes (jsonChars p)).map Char.ofNat = jsonChars p := by
    rw [hbytes, List.map_map]
    have hco : Char.ofNat ∘ Char.toNat = id := funext Char.ofNat_toNat
    rw [hco, List.map_id]
  simp only [decodeRequestTarget, hdata, stripHead_append, Option.some_bind,
    base64_roundtrip _ hlt256, hall, if_true, hmap]
  exact parseParams_jsonChars p (fun c hc => (hL c hc).2.2.1) (fun c hc => (hI c hc).2.2.1)

/-- C9 witness: the default parameter set of the extractor round-trips
through its encoded request target. -/
theorem build_api_url_roundtrip_instance :
    decodeRequestTarget (buildApiUrl
      { pageNumber := 1, pageSize := 1200, language := "pt-br", index := "IBOV" }) =
      some { pageNumber := 1, pageSize := 1200, language := "pt-br", index := "IBOV" } :=
  (build_api_url_roundtrip
    { pageNumber := 1, pageSize := 1200, language := "pt-br", index := "IBOV" }
    (by decide) (by decide)).2
